import Mathlib

/-!
Shallow embedding of the settings-registry / dispatch / persistence core of
the `bevy_log_events` crate (canonical snapshot: `src/systems.rs`,
`src/utils.rs`, with the data model of `src/lib.rs`).

File I/O, the host scheduler, and the RON text syntax are external
collaborators: the on-disk value is modelled as a structured `RonValue`
(the tree that `ron` prints and parses), the `World` resource store as an
association list keyed by `ComponentId` (a `Nat`), and the `BTreeMap`s as
association lists with unique keys.  The `Debug` representation of an event
or component is an input string, since it is supplied by application code.
-/

namespace LogEvents

/-- `bevy::log::Level` (re-exported `tracing::Level`): the five severities
used by `src/lib.rs` `EventSettings.level`. -/
inductive Level where
  | error
  | warn
  | info
  | debug
  | trace
deriving DecidableEq, Repr

/-- `Level::as_str` — the canonical uppercase name used by
`serialize_level` in `src/utils.rs` (line 19). -/
def Level.as_str : Level → String
  | .error => "ERROR"
  | .warn => "WARN"
  | .info => "INFO"
  | .debug => "DEBUG"
  | .trace => "TRACE"

/-- `serialize_level` from `src/utils.rs` lines 15-20: a level is written
as the string `level.as_str()`. -/
def serialize_level (level : Level) : String :=
  level.as_str

/-- `deserialize_level` from `src/utils.rs` lines 22-37: only the five
canonical uppercase strings parse; anything else is a hard error carrying
the offending string. -/
def deserialize_level (s : String) : Except String Level :=
  match s with
  | "ERROR" => .ok .error
  | "WARN" => .ok .warn
  | "INFO" => .ok .info
  | "DEBUG" => .ok .debug
  | "TRACE" => .ok .trace
  | _ => .error ("\"" ++ s ++ "\" does not represent a valid log Level")

/-- `EventSettings` from `src/lib.rs` lines 92-105. -/
structure EventSettings where
  enabled : Bool
  pretty : Bool
  level : Level
deriving DecidableEq, Repr

/-- `EventSettings::default` from `src/lib.rs` lines 107-115. -/
def EventSettings.default : EventSettings :=
  { enabled := true, pretty := true, level := .info }

/-- The `EventKind` bitflags from `src/systems.rs` lines 73-79
(`EVENT = 1`, `TRIGGER = 1 << 1`), modelled as one boolean per bit. -/
structure EventKind where
  event : Bool
  trigger : Bool
deriving DecidableEq, Repr

/-- bitflags `contains`: every bit set in `other` is set in `self`. -/
def EventKind.contains (self other : EventKind) : Bool :=
  (!other.event || self.event) && (!other.trigger || self.trigger)

/-- bitflags `insert`: bitwise or. -/
def EventKind.insert (self other : EventKind) : EventKind :=
  ⟨self.event || other.event, self.trigger || other.trigger⟩

/-- The `EVENT` flag. -/
def EventKind.EVENT : EventKind := ⟨true, false⟩

/-- The `TRIGGER` flag. -/
def EventKind.TRIGGER : EventKind := ⟨false, true⟩

/-! ### Association-list maps

`BTreeMap<K, V>` is modelled as an association list with unique keys.  The
tree's sortedness only fixes iteration order, which no claim below depends
on; key uniqueness — the map semantics — is the invariant carried around. -/

/-- `BTreeMap::get`. -/
def lookupA {α : Type} [DecidableEq α] {β : Type} (k : α) :
    List (α × β) → Option β
  | [] => none
  | (k', v) :: rest => if k = k' then some v else lookupA k rest

/-- `BTreeMap::insert`: replace the value if the key is present, otherwise
add a new entry. -/
def insertA {α : Type} [DecidableEq α] {β : Type} (k : α) (v : β) :
    List (α × β) → List (α × β)
  | [] => [(k, v)]
  | (k', v') :: rest =>
    if k = k' then (k, v) :: rest else (k', v') :: insertA k v rest

/-- In-place update through `BTreeMap::get_mut`: apply `f` to the value at
`k`, leaving the map unchanged when `k` is absent. -/
def updateA {α : Type} [DecidableEq α] {β : Type} (k : α) (f : β → β) :
    List (α × β) → List (α × β)
  | [] => []
  | (k', v) :: rest =>
    if k = k' then (k', f v) :: rest else (k', v) :: updateA k f rest

/-- Unique-keys invariant of a `BTreeMap` modelled as an alist. -/
def WFmap {α : Type} {β : Type} (m : List (α × β)) : Prop :=
  (m.map Prod.fst).Nodup

/-! ### Persistence (`src/utils.rs` lines 9-13, `src/systems.rs` lines 35-67,
257-269)

The on-disk content is a RON document; the text layer (`ron::ser` /
`ron::de`, files) is an external library, so the document is modelled as
the structured value it prints: booleans, strings, records with named
fields, and maps. -/

/-- `LoggedEventsSettings` from `src/utils.rs` lines 9-13: the persisted
snapshot. -/
structure LoggedEventsSettings where
  plugin_enabled : Bool
  events_settings : List (String × EventSettings)
deriving DecidableEq, Repr

/-- The tree a RON document denotes, restricted to the shapes the
snapshot uses. -/
inductive RonValue where
  | bool (b : Bool)
  | str (s : String)
  | record (fields : List (String × RonValue))
  | map (entries : List (String × RonValue))
deriving Repr

/-- Serde `Serialize` for `EventSettings` (derive in `src/lib.rs` line 92,
`level` through `serialize_level`): a record with the three field names. -/
def encodeEventSettings (es : EventSettings) : RonValue :=
  .record [("enabled", .bool es.enabled), ("pretty", .bool es.pretty),
    ("level", .str (serialize_level es.level))]

/-- Serde `Serialize` for `LoggedEventsSettings` (derive in `src/utils.rs`
line 9): `plugin_enabled`, then the `events_settings` map in iteration
order. -/
def encodeSettings (s : LoggedEventsSettings) : RonValue :=
  .record [("plugin_enabled", .bool s.plugin_enabled),
    ("events_settings",
      .map (s.events_settings.map fun nv => (nv.1, encodeEventSettings nv.2)))]

/-- Field access of a derived `Deserialize`: find a field by name. -/
def getField (fields : List (String × RonValue)) (name : String) :
    Except String RonValue :=
  match lookupA name fields with
  | some v => .ok v
  | none => .error ("missing field " ++ name)

/-- Expect a boolean value. -/
def asBool : RonValue → Except String Bool
  | .bool b => .ok b
  | _ => .error "expected bool"

/-- Expect a string value. -/
def asStr : RonValue → Except String String
  | .str s => .ok s
  | _ => .error "expected string"

/-- Serde `Deserialize` for `EventSettings`: three named fields, the level
through `deserialize_level`; any failure fails the whole record. -/
def decodeEventSettings (v : RonValue) : Except String EventSettings :=
  match v with
  | .record fields => do
    let enabled ← getField fields "enabled" >>= asBool
    let pretty ← getField fields "pretty" >>= asBool
    let levelStr ← getField fields "level" >>= asStr
    let level ← deserialize_level levelStr
    pure ⟨enabled, pretty, level⟩
  | _ => .error "expected EventSettings record"

/-- Deserialize the entries of the `events_settings` map one by one; the
first failing entry aborts the whole load. -/
def decodeEntries : List (String × RonValue) →
    Except String (List (String × EventSettings))
  | [] => .ok []
  | (name, v) :: rest => do
    let es ← decodeEventSettings v
    let tail ← decodeEntries rest
    pure ((name, es) :: tail)

/-- `BTreeMap` collection of deserialized entries: fold `insert` over them
in document order. -/
def collectMap (entries : List (String × EventSettings)) :
    List (String × EventSettings) :=
  entries.foldl (fun acc nv => insertA nv.1 nv.2 acc) []

/-- Serde `Deserialize` for `LoggedEventsSettings` (used by `from_reader`
in `load_saved_settings`, `src/systems.rs` line 58). -/
def decodeSettings (v : RonValue) : Except String LoggedEventsSettings :=
  match v with
  | .record fields => do
    let pe ← getField fields "plugin_enabled" >>= asBool
    let entries ← match getField fields "events_settings" with
      | .ok (.map entries) => decodeEntries entries
      | .ok _ => .error "expected map"
      | .error e => .error e
    pure ⟨pe, collectMap entries⟩
  | _ => .error "expected LoggedEventsSettings record"

/-! ### Plugin settings (`src/systems.rs` lines 35-71, `src/lib.rs`
lines 117-124) -/

/-- `LogEventsPluginSettings` from `src/lib.rs` lines 117-124 plus the
`show_window` field of the canonical snapshot (`src/systems.rs` line 50).
The settings path is kept as a plain string. -/
structure LogEventsPluginSettings where
  enabled : Bool
  show_window : Bool
  saved_settings : String
  previous_settings : List (String × EventSettings)
deriving DecidableEq, Repr

/-- `LogEventsPluginSettings::default` from `src/systems.rs` lines 47-54. -/
def LogEventsPluginSettings.default (path : String) :
    LogEventsPluginSettings :=
  { enabled := true, show_window := false, saved_settings := path,
    previous_settings := [] }

/-- The successful branch of `load_saved_settings` (`src/systems.rs` lines
56-66), applied to an already-read-and-parsed snapshot.  `File::open` and
`from_reader` errors are the `Except.error` case of the argument. -/
def load_saved_settings (path : String)
    (read : Except String LoggedEventsSettings) :
    Except String LogEventsPluginSettings :=
  match read with
  | .ok saved =>
    .ok
      { enabled := saved.plugin_enabled,
        show_window := false,
        saved_settings := path,
        previous_settings := saved.events_settings }
  | .error e => .error e

/-- The warning line emitted by `LogEventsPluginSettings::new` on a load
failure (`src/systems.rs` line 41). -/
def loadWarning (path err : String) : String :=
  "Error while trying to load settings from \"" ++ path ++ "\": " ++ err ++
    ". Using default settings instead."

/-- `LogEventsPluginSettings::new` from `src/systems.rs` lines 36-45:
on any load error, emit one warning and fall back to the defaults.  The
second component collects the warning lines emitted. -/
def LogEventsPluginSettings.new (path : String)
    (read : Except String LoggedEventsSettings) :
    LogEventsPluginSettings × List String :=
  match load_saved_settings path read with
  | .ok s => (s, [])
  | .error err => (LogEventsPluginSettings.default path, [loadWarning path err])

/-! ### Type identities (`src/utils.rs` lines 39-45) -/

/-- Rust `str::split("::")` over the character list: cut at each leftmost
occurrence of `"::"`. -/
def splitPathSep : List Char → List (List Char)
  | [] => [[]]
  | ':' :: ':' :: rest => [] :: splitPathSep rest
  | c :: rest =>
    match splitPathSep rest with
    | [] => [[c]]
    | piece :: pieces => (c :: piece) :: pieces

/-- `type_stem` from `src/utils.rs` lines 39-41:
`type_name::<T>().split("::").last().unwrap()`.  `split` never yields an
empty sequence, so the `unwrap` is the `getLastD` default, never taken. -/
def type_stem (typeName : String) : String :=
  String.mk ((splitPathSep typeName.data).getLastD [])

/-- `trigger_name` from `src/utils.rs` lines 43-45:
`format!("{}<{}>", type_stem::<E>(), type_name::<C>())`, applied to the
two type-name strings. -/
def trigger_name (eventTypeName componentTypeName : String) : String :=
  type_stem eventTypeName ++ "<" ++ componentTypeName ++ ">"

/-! ### Registry and world (`src/systems.rs` lines 81-121, 271-293)

The Bevy `World` is modelled by the three resources the core touches: the
`LogSettingsIds` registry, the per-type `EventSettings` resources keyed by
their `ComponentId` (a `Nat`), and the plugin settings.  A generic
registration `register_event::<T>` is modelled by passing the
`ComponentId` that `world.components().resource_id::<T>()` yields for `T`. -/

/-- `ComponentId` of a settings resource. -/
abbrev ComponentId := Nat

/-- `LogSettingsIds` from `src/systems.rs` lines 81-82:
`BTreeMap<String, (ComponentId, EventKind)>`. -/
abbrev LogSettingsIds := List (String × ComponentId × EventKind)

/-- `LogSettingsIds::registered` from `src/systems.rs` lines 85-87. -/
def LogSettingsIds.registered (ids : LogSettingsIds) (name : String)
    (kind : EventKind) : Bool :=
  match lookupA name ids with
  | some entry => entry.2.contains kind
  | none => false

/-- `LogSettingsIds::register` from `src/systems.rs` lines 89-95: if the
name is present, or the kind into its flags; otherwise insert a fresh
entry. -/
def LogSettingsIds.register (ids : LogSettingsIds) (name : String)
    (id : ComponentId) (kind : EventKind) : LogSettingsIds :=
  match lookupA name ids with
  | some _ => updateA name (fun entry => (entry.1, entry.2.insert kind)) ids
  | none => insertA name (id, kind) ids

/-- The slice of the `World` the registry/persistence core reads and
writes. -/
structure WorldModel where
  log_settings_ids : LogSettingsIds
  resources : List (ComponentId × EventSettings)
  plugin_settings : LogEventsPluginSettings
deriving Repr

/-- `register_event::<T>` from `src/systems.rs` lines 101-121.  `tid` is
`T`'s resource `ComponentId`.  Returns `false` without touching the world
when `(name, kind)` is already registered; otherwise inserts `T::default()`,
overwrites it with the previous run's value when `previous_settings`
contains `name`, records the id, and returns `true`. -/
def register_event (w : WorldModel) (tid : ComponentId) (name : String)
    (kind : EventKind) : Bool × WorldModel :=
  if w.log_settings_ids.registered name kind then
    (false, w)
  else
    let res := insertA tid EventSettings.default w.resources
    let res :=
      match lookupA name w.plugin_settings.previous_settings with
      | some previous => insertA tid previous res
      | none => res
    (true,
      { w with
          resources := res,
          log_settings_ids := w.log_settings_ids.register name tid kind })

/-- The loop body of `save_settings` (`src/systems.rs` lines 272-277):
look every registered id up in the resource store
(`get_log_settings_by_id`, `src/utils.rs` lines 47-50, whose `unwrap` is
the `none` case here) and pair it with its name. -/
def collectSettings (resources : List (ComponentId × EventSettings)) :
    LogSettingsIds → Option (List (String × EventSettings))
  | [] => some []
  | (name, id, _) :: rest => do
    let es ← lookupA id resources
    let tail ← collectSettings resources rest
    pure ((name, es) :: tail)

/-- `save_settings` from `src/systems.rs` lines 271-293, up to the external
file write: the snapshot it serializes, or `none` when a
`get_log_settings_by_id` unwrap would panic. -/
def save_settings (w : WorldModel) : Option LoggedEventsSettings :=
  (collectSettings w.resources w.log_settings_ids).map fun all =>
    { plugin_enabled := w.plugin_settings.enabled, events_settings := all }

/-- The world right after `LogEventsPlugin::build` (`src/systems.rs` lines
26-32): an empty `LogSettingsIds` registry, no per-type settings resource
yet, and the plugin settings produced by `LogEventsPluginSettings::new`. -/
def initialWorld (plugin : LogEventsPluginSettings) : WorldModel :=
  { log_settings_ids := [], resources := [], plugin_settings := plugin }

/-! ### Dispatch pipeline (`src/systems.rs` lines 123-255)

A log sink call is a `(Level, String)` pair; each dispatch function
returns the list of lines it emits.  The `Debug` representation of an
event or component is application code, so it enters the model as a pair
of strings: the `{:#?}` (pretty) and `{:?}` (compact) renderings.  The
optional `MaybeLocation` origin enters as an `Option String`.  An entity
is its raw id (`Entity::PLACEHOLDER` is `u32::MAX`-indexed) together with
its `Display` rendering. -/

/-- Raw entity id; `Entity::PLACEHOLDER` has index `u32::MAX`. -/
abbrev EntityId := Nat

/-- `Entity::PLACEHOLDER`. -/
def PLACEHOLDER : EntityId := 4294967295

/-- `format_event` from `src/systems.rs` lines 133-154:
`"<TypeName>[ at <origin>]: <value>"`, pretty or compact per the
settings.  Writing into a `String` cannot fail, so the `Result` is
always `Ok`. -/
def format_event (settings : EventSettings) (typeName : String)
    (location : Option String) (prettyRepr compactRepr : String) : String :=
  typeName ++
    (match location with
      | some l => " at " ++ l
      | none => "") ++
    ": " ++
    (if settings.pretty then prettyRepr else compactRepr)

/-- `format_entity_and_object` from `src/systems.rs` lines 156-184:
`"<EventName> on <EntityLabel>[ at <origin>]: <value>"`, where the label
is `"{name}({entity})"` when the entity has a `Name` and the bare entity
id rendering otherwise. -/
def format_entity_and_object (settings : EventSettings) (eventName : String)
    (entityName : Option String) (entityStr : String)
    (location : Option String) (prettyRepr compactRepr : String) : String :=
  eventName ++ " on " ++
    (match entityName with
      | some name => name ++ "(" ++ entityStr ++ ")"
      | none => entityStr) ++
    (match location with
      | some l => " at " ++ l
      | none => "") ++
    ": " ++
    (if settings.pretty then prettyRepr else compactRepr)

/-- One pending polled event: its origin and its two `Debug` renderings. -/
structure PolledEvent where
  location : Option String
  prettyRepr : String
  compactRepr : String
deriving Repr

/-- `log_event` from `src/systems.rs` lines 186-198: skip everything when
the per-type flag is off, else emit one line per pending event at
`settings.level`. -/
def log_event (settings : EventSettings) (typeName : String)
    (events : List PolledEvent) : List (Level × String) :=
  if !settings.enabled then []
  else
    events.map fun e =>
      (settings.level,
        format_event settings typeName e.location e.prettyRepr e.compactRepr)

/-- The polled path as scheduled by `LogEventsPlugin::build`
(`src/systems.rs` line 29): `log_event` sits in `LogEventsSet`, which is
gated by `run_if(plugin_enabled)`, so the system body does not run at all
when the plugin is disabled. -/
def run_log_event_system (plugin : LogEventsPluginSettings)
    (settings : EventSettings) (typeName : String)
    (events : List PolledEvent) : List (Level × String) :=
  if plugin.enabled then log_event settings typeName events else []

/-- `log_triggered` from `src/systems.rs` lines 200-228: nothing when the
global or per-type flag is off; with a real target entity, the
entity-labelled format (the `Name` lookup result enters as
`targetName`); with `Entity::PLACEHOLDER`, the plain event format. -/
def log_triggered (plugin : LogEventsPluginSettings)
    (settings : EventSettings) (typeName : String) (target : EntityId)
    (targetStr : String) (targetName : Option String)
    (location : Option String) (prettyRepr compactRepr : String) :
    List (Level × String) :=
  if !plugin.enabled || !settings.enabled then []
  else if target ≠ PLACEHOLDER then
    [(settings.level,
      format_entity_and_object settings typeName targetName targetStr
        location prettyRepr compactRepr)]
  else
    [(settings.level,
      format_event settings typeName location prettyRepr compactRepr)]

/-- What `query.get(target)` yields in `log_component`: the component's
two `Debug` renderings and the entity's optional `Name`, or nothing when
the entity no longer has the component. -/
structure ComponentQueryHit where
  prettyRepr : String
  compactRepr : String
  entityName : Option String
deriving Repr

/-- `log_component` from `src/systems.rs` lines 230-255: nothing when the
global or per-type flag is off or the component query misses; otherwise
one entity-labelled line under the composite `trigger_name`. -/
def log_component (plugin : LogEventsPluginSettings)
    (settings : EventSettings) (eventTypeName componentTypeName : String)
    (targetStr : String) (hit : Option ComponentQueryHit)
    (location : Option String) : List (Level × String) :=
  if !plugin.enabled || !settings.enabled then []
  else
    match hit with
    | some h =>
      [(settings.level,
        format_entity_and_object settings
          (trigger_name eventTypeName componentTypeName) h.entityName
          targetStr location h.prettyRepr h.compactRepr)]
    | none => []

/-- A two-entry snapshot used as concrete input. -/
def sampleSnapshot : LoggedEventsSettings :=
  ⟨false, [("Bar", ⟨true, false, .debug⟩), ("Foo", ⟨false, false, .warn⟩)]⟩

/-- Every id recorded in the registry refers to an existing settings
resource — the property the `unwrap` in `get_log_settings_by_id`
(`src/utils.rs` line 48) relies on. -/
def Inv (w : WorldModel) : Prop :=
  ∀ name id kind, (name, (id, kind)) ∈ w.log_settings_ids →
    ∃ es, lookupA id w.resources = some es

/-- A run's registration calls, applied in order:
each element carries the resource id of `T`, the name, and the kind. -/
def applyRegistrations (rs : List (ComponentId × String × EventKind))
    (w : WorldModel) : WorldModel :=
  rs.foldl (fun w r => (register_event w r.1 r.2.1 r.2.2).2) w

/-! ### Map lemmas -/

theorem lookupA_insertA_self {α : Type} [DecidableEq α] {β : Type}
    (k : α) (v : β) (m : List (α × β)) :
    lookupA k (insertA k v m) = some v := by
  induction m with
  | nil => simp [insertA, lookupA]
  | cons hd tl ih =>
    by_cases h : k = hd.1
    · simp [insertA, lookupA, h]
    · simpa [insertA, lookupA, h] using ih

theorem lookupA_insertA_ne {α : Type} [DecidableEq α] {β : Type}
    {k k' : α} (v : β) (m : List (α × β)) (h : k ≠ k') :
    lookupA k (insertA k' v m) = lookupA k m := by
  induction m with
  | nil => simp [insertA, lookupA, h]
  | cons hd tl ih =>
    by_cases h2 : k' = hd.1
    · have hk : k ≠ hd.1 := fun he => h (he.trans h2.symm)
      simp [insertA, lookupA, h2, h, hk]
    · by_cases h3 : k = hd.1 <;> simp [insertA, lookupA, h2, h3, ih]

theorem mem_keys_of_lookupA {α : Type} [DecidableEq α] {β : Type}
    {k : α} {v : β} {m : List (α × β)} (h : lookupA k m = some v) :
    k ∈ m.map Prod.fst := by
  induction m with
  | nil => simp [lookupA] at h
  | cons hd tl ih =>
    by_cases h2 : k = hd.1
    · simp [h2]
    · simp [lookupA, h2] at h
      simp [ih h]

theorem lookupA_eq_none_of_not_mem {α : Type} [DecidableEq α] {β : Type}
    {k : α} {m : List (α × β)} (h : k ∉ m.map Prod.fst) :
    lookupA k m = none := by
  induction m with
  | nil => rfl
  | cons hd tl ih =>
    simp only [List.map_cons, List.mem_cons, not_or] at h
    simp [lookupA, h.1, ih h.2]

theorem insertA_eq_append_of_lookupA_none {α : Type} [DecidableEq α]
    {β : Type} {k : α} (v : β) {m : List (α × β)}
    (h : lookupA k m = none) : insertA k v m = m ++ [(k, v)] := by
  induction m with
  | nil => rfl
  | cons hd tl ih =>
    by_cases h2 : k = hd.1
    · simp [lookupA, h2] at h
    · simp [lookupA, h2] at h
      simp [insertA, h2, ih h]

theorem keys_updateA {α : Type} [DecidableEq α] {β : Type}
    (k : α) (f : β → β) (m : List (α × β)) :
    (updateA k f m).map Prod.fst = m.map Prod.fst := by
  induction m with
  | nil => rfl
  | cons hd tl ih =>
    by_cases h : k = hd.1 <;> simp [updateA, h, ih]

theorem lookupA_updateA_self {α : Type} [DecidableEq α] {β : Type}
    (k : α) (f : β → β) (m : List (α × β)) :
    lookupA k (updateA k f m) = (lookupA k m).map f := by
  induction m with
  | nil => rfl
  | cons hd tl ih =>
    by_cases h : k = hd.1 <;> simp [updateA, lookupA, h, ih]

theorem mem_keys_insertA {α : Type} [DecidableEq α] {β : Type}
    {a k : α} {v : β} {m : List (α × β)} :
    a ∈ (insertA k v m).map Prod.fst ↔ a = k ∨ a ∈ m.map Prod.fst := by
  induction m with
  | nil => simp [insertA]
  | cons hd tl ih =>
    by_cases h : k = hd.1
    · have he : insertA k v (hd :: tl) = (k, v) :: tl := by simp [insertA, h]
      rw [he]
      simp only [List.map_cons, List.mem_cons, ← h]
      tauto
    · have he : insertA k v (hd :: tl) = hd :: insertA k v tl := by
        simp [insertA, h]
      rw [he]
      simp only [List.map_cons, List.mem_cons, ih]
      tauto

theorem WFmap_insertA {α : Type} [DecidableEq α] {β : Type}
    (k : α) (v : β) {m : List (α × β)} (h : WFmap m) :
    WFmap (insertA k v m) := by
  induction m with
  | nil => simp [insertA, WFmap]
  | cons hd tl ih =>
    unfold WFmap at h
    simp only [List.map_cons, List.nodup_cons] at h
    by_cases h2 : k = hd.1
    · unfold WFmap
      simp only [insertA, if_pos h2, List.map_cons, List.nodup_cons]
      exact ⟨h2 ▸ h.1, h.2⟩
    · unfold WFmap
      simp only [insertA, if_neg h2, List.map_cons, List.nodup_cons]
      refine ⟨fun hmem => ?_, ih h.2⟩
      rcases mem_keys_insertA.mp hmem with he | hmem2
      · exact h2 (he ▸ rfl)
      · exact h.1 hmem2

theorem WFmap_register {ids : LogSettingsIds} (name : String)
    (id : ComponentId) (kind : EventKind) (h : WFmap ids) :
    WFmap (ids.register name id kind) := by
  unfold LogSettingsIds.register
  cases hl : lookupA name ids with
  | some e => unfold WFmap; rw [keys_updateA]; exact h
  | none => exact WFmap_insertA name (id, kind) h

/-! ### Registration lemmas -/

theorem EventKind.contains_self (k : EventKind) : k.contains k = true := by
  obtain ⟨e, t⟩ := k
  cases e <;> cases t <;> rfl

theorem EventKind.contains_insert (a b : EventKind) :
    (a.insert b).contains b = true := by
  obtain ⟨a1, a2⟩ := a
  obtain ⟨b1, b2⟩ := b
  cases a1 <;> cases a2 <;> cases b1 <;> cases b2 <;> rfl

theorem registered_register (ids : LogSettingsIds) (name : String)
    (tid : ComponentId) (kind : EventKind) :
    (ids.register name tid kind).registered name kind = true := by
  unfold LogSettingsIds.register LogSettingsIds.registered
  cases hl : lookupA name ids with
  | some e =>
    rw [lookupA_updateA_self, hl]
    simp [EventKind.contains_insert]
  | none =>
    rw [lookupA_insertA_self]
    simp [EventKind.contains_self]

theorem register_event_of_registered {w : WorldModel} {tid : ComponentId}
    {name : String} {kind : EventKind}
    (h : w.log_settings_ids.registered name kind = true) :
    register_event w tid name kind = (false, w) := by
  unfold register_event
  simp [h]

theorem registered_register_event (w : WorldModel) (tid : ComponentId)
    (name : String) (kind : EventKind) :
    (register_event w tid name kind).2.log_settings_ids.registered name kind
      = true := by
  unfold register_event
  by_cases h : w.log_settings_ids.registered name kind = true
  · simp [h]
  · simp [h, registered_register]

theorem lookupA_isSome_of_registered {ids : LogSettingsIds} {name : String}
    {kind : EventKind} (h : ids.registered name kind = true) :
    ∃ e, lookupA name ids = some e := by
  unfold LogSettingsIds.registered at h
  cases hl : lookupA name ids with
  | some e => exact ⟨e, rfl⟩
  | none => rw [hl] at h; simp at h

theorem WFmap_register_event (w : WorldModel) (tid : ComponentId)
    (name : String) (kind : EventKind) (h : WFmap w.log_settings_ids) :
    WFmap (register_event w tid name kind).2.log_settings_ids := by
  unfold register_event
  by_cases hr : w.log_settings_ids.registered name kind = true
  · simpa [hr] using h
  · simpa [hr] using WFmap_register name tid kind h

/-! ### Claim theorems -/

/-- C1: registration is idempotent.  For any world and any `(name, kind)`
identity, a second `register_event` call after a first one returns
`false`, changes nothing in the world (in particular the settings value
recorded for the type is the one the first call left), and the registry
holds exactly one entry for `name`. -/
theorem register_event_idempotent (w : WorldModel) (tid : ComponentId)
    (name : String) (kind : EventKind) (hwf : WFmap w.log_settings_ids) :
    (register_event (register_event w tid name kind).2 tid name kind).1
      = false ∧
    (register_event (register_event w tid name kind).2 tid name kind).2
      = (register_event w tid name kind).2 ∧
    ((register_event w tid name kind).2.log_settings_ids.map
      Prod.fst).count name = 1 ∧
    lookupA tid
        (register_event (register_event w tid name kind).2 tid name
          kind).2.resources
      = lookupA tid (register_event w tid name kind).2.resources := by
  have hreg := registered_register_event w tid name kind
  have hsecond := @register_event_of_registered
    (register_event w tid name kind).2 tid name kind hreg
  refine ⟨by rw [hsecond], by rw [hsecond], ?_, by rw [hsecond]⟩
  obtain ⟨e, he⟩ := lookupA_isSome_of_registered hreg
  have hmem := mem_keys_of_lookupA he
  have hnd := WFmap_register_event w tid name kind hwf
  exact List.count_eq_one_of_mem hnd hmem

/-- Witness for C1 at a concrete world: an empty registry, component id 7,
name `"Foo"`, kind `EVENT`. -/
theorem register_event_idempotent_witness :
    WFmap (initialWorld (LogEventsPluginSettings.default
      "log_settings.ron")).log_settings_ids ∧
    (register_event
      (register_event
        (initialWorld (LogEventsPluginSettings.default "log_settings.ron"))
        7 "Foo" EventKind.EVENT).2 7 "Foo" EventKind.EVENT).1 = false := by
  refine ⟨by simp [initialWorld, WFmap], ?_⟩
  exact (register_event_idempotent
    (initialWorld (LogEventsPluginSettings.default "log_settings.ron"))
    7 "Foo" EventKind.EVENT (by simp [initialWorld, WFmap])).1

/-- C2: restore-on-register.  A first registration of `name` stores the
default settings and then overwrites them with the previous run's
snapshot value when one exists, so the registered resource reads the
snapshot value, not the default; the call also reports `true`. -/
theorem register_event_restores (w : WorldModel) (tid : ComponentId)
    (name : String) (kind : EventKind)
    (h : w.log_settings_ids.registered name kind = false) :
    (register_event w tid name kind).1 = true ∧
    lookupA tid (register_event w tid name kind).2.resources =
      some (match lookupA name w.plugin_settings.previous_settings with
        | some previous => previous
        | none => EventSettings.default) := by
  unfold register_event
  rw [if_neg (by simp [h])]
  cases hl : lookupA name w.plugin_settings.previous_settings with
  | some previous => simp [hl, lookupA_insertA_self]
  | none => simp [hl, lookupA_insertA_self]

/-- Witness for C2: a fresh world whose restored snapshot maps `"Foo"` to
`{enabled := false, pretty := false, level := Warn}`; registering `"Foo"`
observes exactly that value. -/
theorem register_event_restores_witness :
    (initialWorld
        { enabled := true, show_window := false,
          saved_settings := "log_settings.ron",
          previous_settings :=
            [("Foo", ⟨false, false, .warn⟩)] }).log_settings_ids.registered
      "Foo" EventKind.EVENT = false ∧
    lookupA 7
        (register_event
          (initialWorld
            { enabled := true, show_window := false,
              saved_settings := "log_settings.ron",
              previous_settings := [("Foo", ⟨false, false, .warn⟩)] })
          7 "Foo" EventKind.EVENT).2.resources
      = some ⟨false, false, .warn⟩ := by
  refine ⟨rfl, ?_⟩
  exact (register_event_restores
    (initialWorld
      { enabled := true, show_window := false,
        saved_settings := "log_settings.ron",
        previous_settings := [("Foo", ⟨false, false, .warn⟩)] })
    7 "Foo" EventKind.EVENT rfl).2

/-! ### Persistence lemmas -/

theorem deserialize_serialize_level (l : Level) :
    deserialize_level (serialize_level l) = .ok l := by
  cases l <;> rfl

theorem decodeEventSettings_encode (es : EventSettings) :
    decodeEventSettings (encodeEventSettings es) = .ok es := by
  obtain ⟨e, p, l⟩ := es
  cases e <;> cases p <;> cases l <;> rfl

theorem decodeEntries_encode (l : List (String × EventSettings)) :
    decodeEntries (l.map fun nv => (nv.1, encodeEventSettings nv.2))
      = .ok l := by
  induction l with
  | nil => rfl
  | cons hd tl ih =>
    simp only [List.map_cons, decodeEntries, decodeEventSettings_encode, ih]
    rfl

theorem foldl_insertA (l : List (String × EventSettings))
    (acc : List (String × EventSettings))
    (h : (acc.map Prod.fst ++ l.map Prod.fst).Nodup) :
    l.foldl (fun acc nv => insertA nv.1 nv.2 acc) acc = acc ++ l := by
  induction l generalizing acc with
  | nil => simp
  | cons hd tl ih =>
    have hk : hd.1 ∉ acc.map Prod.fst := by
      have := (List.nodup_append.mp h).2.2
      exact fun hmem => this hmem (by simp)
    have he : insertA hd.1 hd.2 acc = acc ++ [hd] := by
      rw [insertA_eq_append_of_lookupA_none _
        (lookupA_eq_none_of_not_mem hk)]
    have h2 : ((acc ++ [hd]).map Prod.fst ++ tl.map Prod.fst).Nodup := by
      simp only [List.map_append, List.map_cons, List.map_nil,
        List.append_assoc, List.singleton_append]
      simpa using h
    calc (hd :: tl).foldl (fun acc nv => insertA nv.1 nv.2 acc) acc
        = tl.foldl (fun acc nv => insertA nv.1 nv.2 acc) (acc ++ [hd]) := by
          simp [he]
      _ = (acc ++ [hd]) ++ tl := ih (acc ++ [hd]) h2
      _ = acc ++ hd :: tl := by simp

theorem collectMap_eq_self {l : List (String × EventSettings)}
    (h : WFmap l) : collectMap l = l := by
  unfold collectMap
  simpa using foldl_insertA l [] (by simpa [WFmap] using h)

/-- C3: save/load round-trip.  Decoding the document that `save_settings`
serializes (`encodeSettings`) reproduces exactly the snapshot: the same
`LoggedTypeId → SettingsValue` mapping and the same `plugin_enabled`
flag. -/
theorem save_load_roundtrip (s : LoggedEventsSettings)
    (h : WFmap s.events_settings) :
    decodeSettings (encodeSettings s) = .ok s := by
  obtain ⟨pe, es⟩ := s
  have h1 : getField
      [("plugin_enabled", RonValue.bool pe),
        ("events_settings",
          RonValue.map (es.map fun nv => (nv.1, encodeEventSettings nv.2)))]
      "plugin_enabled" = .ok (.bool pe) := rfl
  have h2 : getField
      [("plugin_enabled", RonValue.bool pe),
        ("events_settings",
          RonValue.map (es.map fun nv => (nv.1, encodeEventSettings nv.2)))]
      "events_settings"
      = .ok (.map (es.map fun nv => (nv.1, encodeEventSettings nv.2))) := rfl
  simp only [encodeSettings, decodeSettings]
  rw [h1, h2]
  simp [asBool, decodeEntries_encode, collectMap_eq_self h]
  rfl

/-- Witness for C3 at a concrete snapshot with two entries. -/
theorem save_load_roundtrip_witness :
    WFmap sampleSnapshot.events_settings ∧
    decodeSettings (encodeSettings sampleSnapshot) = .ok sampleSnapshot := by
  refine ⟨by simp [WFmap, sampleSnapshot], ?_⟩
  exact save_load_roundtrip sampleSnapshot (by simp [WFmap, sampleSnapshot])

/-- C4: global gate.  With the plugin-wide flag off, none of the three
dispatch paths — the polled-event system (whose `LogEventsSet` is gated by
`run_if(plugin_enabled)`), the immediate-trigger observer, and the
lifecycle/component observer — emits any log line, whatever the per-type
settings, events, or query results are. -/
theorem global_gate (plugin : LogEventsPluginSettings)
    (h : plugin.enabled = false) :
    (∀ settings typeName events,
      run_log_event_system plugin settings typeName events = []) ∧
    (∀ settings typeName target targetStr targetName location pr cr,
      log_triggered plugin settings typeName target targetStr targetName
        location pr cr = []) ∧
    (∀ settings eName cName targetStr hit location,
      log_component plugin settings eName cName targetStr hit
        location = []) := by
  refine ⟨fun _ _ _ => ?_, fun _ _ _ _ _ _ _ _ => ?_, fun _ _ _ _ _ _ => ?_⟩
  · simp [run_log_event_system, h]
  · simp [log_triggered, h]
  · simp [log_component, h]

/-- Witness for C4: a disabled plugin, an enabled per-type setting, one
pending event, a real target entity and a component hit — still no
output on any path. -/
theorem global_gate_witness :
    (LogEventsPluginSettings.mk false false "log_settings.ron"
      []).enabled = false ∧
    run_log_event_system
      (LogEventsPluginSettings.mk false false "log_settings.ron" [])
      ⟨true, true, .info⟩ "Foo" [⟨none, "Foo", "Foo"⟩] = [] := by
  refine ⟨rfl, ?_⟩
  exact (global_gate
    (LogEventsPluginSettings.mk false false "log_settings.ron" []) rfl).1
    ⟨true, true, .info⟩ "Foo" [⟨none, "Foo", "Foo"⟩]

/-- C5: load-error recovery.  On any load failure
`LogEventsPluginSettings::new` emits exactly one warning line and
proceeds with the defaults: globally enabled, window hidden, an empty
restored snapshot, the same path — never a fatal outcome. -/
theorem load_failure_recovers (path err : String) :
    (LogEventsPluginSettings.new path (.error err)).1
        = LogEventsPluginSettings.default path ∧
    (LogEventsPluginSettings.new path (.error err)).1.enabled = true ∧
    (LogEventsPluginSettings.new path
      (.error err)).1.previous_settings = [] ∧
    (LogEventsPluginSettings.new path (.error err)).2
        = [loadWarning path err] := by
  refine ⟨rfl, rfl, rfl, rfl⟩

/-- C6: strict level serialization.  Every level serializes to its
canonical uppercase name; exactly those five strings deserialize (and to
the level they came from); any other string is a hard error carrying the
offending string; and one bad level entry anywhere in the
`events_settings` map makes the whole snapshot decode fail rather than
parse partially. -/
theorem level_serialization_strict :
    (serialize_level .error = "ERROR" ∧ serialize_level .warn = "WARN" ∧
      serialize_level .info = "INFO" ∧ serialize_level .debug = "DEBUG" ∧
      serialize_level .trace = "TRACE") ∧
    (∀ l : Level, deserialize_level (serialize_level l) = .ok l) ∧
    (∀ s : String, s ∉ ["ERROR", "WARN", "INFO", "DEBUG", "TRACE"] →
      deserialize_level s =
        .error ("\"" ++ s ++ "\" does not represent a valid log Level")) ∧
    (∀ (pe : Bool) (entries : List (String × RonValue)) (name : String)
      (v : RonValue) (msg : String), (name, v) ∈ entries →
      decodeEventSettings v = .error msg →
      ∃ msg2, decodeSettings (.record [("plugin_enabled", .bool pe),
        ("events_settings", .map entries)]) = .error msg2) := by
  refine ⟨⟨rfl, rfl, rfl, rfl, rfl⟩, deserialize_serialize_level, ?_, ?_⟩
  · intro s hs
    simp only [List.mem_cons, List.mem_singleton, not_or] at hs
    obtain ⟨h1, h2, h3, h4, h5, -⟩ := hs
    unfold deserialize_level
    split <;> first
      | rfl
      | exact absurd (by assumption) (by simp_all)
  · intro pe entries name v msg hmem hbad
    have herr : ∃ msg2, decodeEntries entries = .error msg2 := by
      clear pe
      induction entries with
      | nil => simp at hmem
      | cons hd tl ih =>
        rcases List.mem_cons.mp hmem with he | hmem2
        · refine ⟨msg, ?_⟩
          simp only [decodeEntries, ← he, hbad]
          rfl
        · cases hd2 : decodeEventSettings hd.2 with
          | error m => exact ⟨m, by simp only [decodeEntries, hd2]; rfl⟩
          | ok es =>
            obtain ⟨m2, hm2⟩ := ih hmem2
            refine ⟨m2, ?_⟩
            simp only [decodeEntries, hd2, hm2]
            rfl
    obtain ⟨msg2, hm⟩ := herr
    refine ⟨msg2, ?_⟩
    have hred : decodeSettings (.record [("plugin_enabled", .bool pe),
        ("events_settings", .map entries)])
        = decodeEntries entries >>= fun y =>
            pure ⟨pe, collectMap y⟩ := rfl
    rw [hred, hm]
    rfl

/-- Witness for C6: not needed for the first three conjuncts, supplied for
the last: a snapshot whose `"Foo"` entry has level `"VERBOSE"` fails to
decode as a whole. -/
theorem level_serialization_strict_witness :
    ("Foo", RonValue.record [("enabled", .bool true),
        ("pretty", .bool true), ("level", .str "VERBOSE")]) ∈
      [("Foo", RonValue.record [("enabled", .bool true),
        ("pretty", .bool true), ("level", .str "VERBOSE")])] ∧
    decodeEventSettings (RonValue.record [("enabled", .bool true),
        ("pretty", .bool true), ("level", .str "VERBOSE")])
      = .error "\"VERBOSE\" does not represent a valid log Level" ∧
    ∃ msg2, decodeSettings (.record [("plugin_enabled", .bool true),
      ("events_settings", .map [("Foo", RonValue.record
        [("enabled", .bool true), ("pretty", .bool true),
          ("level", .str "VERBOSE")])])]) = .error msg2 := by
  refine ⟨by simp, rfl, ?_⟩
  exact level_serialization_strict.2.2.2 true
    [("Foo", RonValue.record [("enabled", .bool true),
      ("pretty", .bool true), ("level", .str "VERBOSE")])]
    "Foo"
    (RonValue.record [("enabled", .bool true), ("pretty", .bool true),
      ("level", .str "VERBOSE")])
    "\"VERBOSE\" does not represent a valid log Level"
    (by simp) rfl

/-- C7 counterexample: the composite id for an add-trigger on a component
`MyComponent` is not the plain concatenation `"AddMyComponent"` the claim
names; `trigger_name` yields `"OnAdd<MyComponent>"` (the last
`::`-segment of the event type's name, then the component's type name in
angle brackets). -/
theorem trigger_name_counterexample :
    trigger_name "bevy_ecs::observer::OnAdd" "MyComponent"
        = "OnAdd<MyComponent>" ∧
    trigger_name "bevy_ecs::observer::OnAdd" "MyComponent"
        ≠ "AddMyComponent" := by
  exact ⟨by decide, by decide⟩

/-- C7 amended: for a lifecycle trigger bound to a component, the
`LoggedTypeId` is `"<EventTypeStem><ComponentTypeName>"` with literal
angle brackets: the last `::`-segment of the trigger event's type name,
then `<`, the component's fully qualified type name, and `>` — so for the
five lifecycle events the ids read `"OnAdd<C>"`, `"OnInsert<C>"`,
`"OnReplace<C>"`, `"OnRemove<C>"`, `"OnDespawn<C>"`. -/
theorem trigger_name_lifecycle (cName : String) :
    trigger_name "bevy_ecs::observer::OnAdd" cName
        = "OnAdd<" ++ cName ++ ">" ∧
    trigger_name "bevy_ecs::observer::OnInsert" cName
        = "OnInsert<" ++ cName ++ ">" ∧
    trigger_name "bevy_ecs::observer::OnReplace" cName
        = "OnReplace<" ++ cName ++ ">" ∧
    trigger_name "bevy_ecs::observer::OnRemove" cName
        = "OnRemove<" ++ cName ++ ">" ∧
    trigger_name "bevy_ecs::observer::OnDespawn" cName
        = "OnDespawn<" ++ cName ++ ">" := by
  exact ⟨rfl, rfl, rfl, rfl, rfl⟩

/-- C8: immediate-trigger log format.  When both gates are on, a trigger
with a real target entity logs
`"<TypeName> on <EntityLabel>[ at <origin>]: <value>"`, where the label
is the entity's display name followed by its id in parentheses when a
name exists and the bare id otherwise, and the value is the pretty or
compact rendering per the `pretty` flag; a trigger whose target is
`Entity::PLACEHOLDER` falls back to the polled-event format
`"<TypeName>[ at <origin>]: <value>"`.  One line is emitted, at the
per-type level. -/
theorem log_triggered_format (plugin : LogEventsPluginSettings)
    (settings : EventSettings) (typeName : String) (target : EntityId)
    (targetStr : String) (targetName : Option String)
    (location : Option String) (pr cr : String)
    (hp : plugin.enabled = true) (hs : settings.enabled = true) :
    log_triggered plugin settings typeName target targetStr targetName
        location pr cr =
      if target ≠ PLACEHOLDER then
        [(settings.level,
          typeName ++ " on " ++
            (match targetName with
              | some n => n ++ "(" ++ targetStr ++ ")"
              | none => targetStr) ++
            (match location with
              | some l => " at " ++ l
              | none => "") ++
            ": " ++ (if settings.pretty then pr else cr))]
      else
        [(settings.level,
          typeName ++
            (match location with
              | some l => " at " ++ l
              | none => "") ++
            ": " ++ (if settings.pretty then pr else cr))] := by
  unfold log_triggered format_entity_and_object format_event
  simp [hp, hs]

/-- Witness for C8: a named target entity `Player(4v1)` with an origin,
pretty formatting on. -/
theorem log_triggered_format_witness :
    (LogEventsPluginSettings.mk true false "log_settings.ron"
      []).enabled = true ∧
    (EventSettings.mk true true Level.info).enabled = true ∧
    log_triggered
        (LogEventsPluginSettings.mk true false "log_settings.ron" [])
        (EventSettings.mk true true Level.info) "MyEvent" 4 "4v1"
        (some "Player") (some "src/main.rs:10:5") "E(\n    1,\n)"
        "E(1)"
      = [(Level.info,
          "MyEvent on Player(4v1) at src/main.rs:10:5: E(\n    1,\n)")] := by
  refine ⟨rfl, rfl, ?_⟩
  have h := log_triggered_format
    (LogEventsPluginSettings.mk true false "log_settings.ron" [])
    (EventSettings.mk true true Level.info) "MyEvent" 4 "4v1"
    (some "Player") (some "src/main.rs:10:5") "E(\n    1,\n)" "E(1)"
    rfl rfl
  rw [h]
  rfl

/-! ### Registry/resource-store invariant (C9, C10) -/

theorem mem_updateA {α : Type} [DecidableEq α] {β : Type}
    {k : α} {f : β → β} {m : List (α × β)} {n : α} {v : β}
    (h : (n, v) ∈ updateA k f m) :
    (n, v) ∈ m ∨ ∃ v0, (n, v0) ∈ m ∧ v = f v0 := by
  induction m with
  | nil => simp [updateA] at h
  | cons hd tl ih =>
    by_cases h2 : k = hd.1
    · rw [show updateA k f (hd :: tl) = (hd.1, f hd.2) :: tl by
        simp [updateA, h2]] at h
      rcases List.mem_cons.mp h with he | hmem
      · right
        refine ⟨hd.2, by simp [Prod.ext_iff] at he; simp [he], by
          simp [Prod.ext_iff] at he; simp [he]⟩
      · exact .inl (List.mem_cons_of_mem hd hmem)
    · rw [show updateA k f (hd :: tl) = hd :: updateA k f tl by
        simp [updateA, h2]] at h
      rcases List.mem_cons.mp h with he | hmem
      · exact .inl (he ▸ List.mem_cons_self hd tl)
      · rcases ih hmem with hm | ⟨v0, hv0, he⟩
        · exact .inl (List.mem_cons_of_mem hd hm)
        · exact .inr ⟨v0, List.mem_cons_of_mem hd hv0, he⟩

theorem mem_register {ids : LogSettingsIds} {name : String}
    {tid : ComponentId} {kind : EventKind} {n : String}
    {i : ComponentId} {k : EventKind}
    (h : (n, (i, k)) ∈ ids.register name tid kind) :
    (∃ k0, (n, (i, k0)) ∈ ids) ∨ (n = name ∧ i = tid) := by
  unfold LogSettingsIds.register at h
  cases hl : lookupA name ids with
  | some e =>
    rw [hl] at h
    rcases mem_updateA h with hm | ⟨v0, hv0, he⟩
    · exact .inl ⟨k, hm⟩
    · exact .inl ⟨v0.2, by
        have h3 : i = v0.1 := congrArg Prod.fst he
        exact h3 ▸ hv0⟩
  | none =>
    rw [hl, insertA_eq_append_of_lookupA_none _ hl] at h
    rcases List.mem_append.mp h with hm | hm
    · exact .inl ⟨k, hm⟩
    · simp [Prod.ext_iff] at hm
      exact .inr ⟨hm.1, hm.2.1⟩

theorem Inv_register_event (w : WorldModel) (tid : ComponentId)
    (name : String) (kind : EventKind) (h : Inv w) :
    Inv (register_event w tid name kind).2 := by
  unfold register_event
  by_cases hr : w.log_settings_ids.registered name kind = true
  · simpa [hr] using h
  · simp only [hr, Bool.false_eq_true, if_false, if_neg]
    intro n i k hmem
    have hres : ∀ (previous : EventSettings)
        (res : List (ComponentId × EventSettings)),
        ∃ es, lookupA tid (insertA tid previous res) = some es :=
      fun previous res => ⟨previous, lookupA_insertA_self tid previous res⟩
    rcases mem_register hmem with ⟨k0, hm⟩ | ⟨hn, hi⟩
    · obtain ⟨es, hes⟩ := h n i k0 hm
      by_cases hit : i = tid
      · subst hit
        cases hl : lookupA name w.plugin_settings.previous_settings with
        | some previous => simpa [hl] using hres previous _
        | none => simpa [hl] using hres EventSettings.default _
      · cases hl : lookupA name w.plugin_settings.previous_settings with
        | some previous =>
          refine ⟨es, ?_⟩
          simp only [hl]
          rw [lookupA_insertA_ne _ _ hit, lookupA_insertA_ne _ _ hit]
          exact hes
        | none =>
          refine ⟨es, ?_⟩
          simp only [hl]
          rw [lookupA_insertA_ne _ _ hit]
          exact hes
    · subst hi
      cases hl : lookupA name w.plugin_settings.previous_settings with
      | some previous => simpa [hl] using hres previous _
      | none => simpa [hl] using hres EventSettings.default _

theorem Inv_applyRegistrations (rs : List (ComponentId × String × EventKind))
    (w : WorldModel) (h : Inv w) : Inv (applyRegistrations rs w) := by
  induction rs generalizing w with
  | nil => exact h
  | cons hd tl ih =>
    exact ih _ (Inv_register_event w hd.1 hd.2.1 hd.2.2 h)

theorem collectSettings_isSome {res : List (ComponentId × EventSettings)}
    {ids : LogSettingsIds}
    (h : ∀ name id kind, (name, (id, kind)) ∈ ids →
      ∃ es, lookupA id res = some es) :
    ∃ l, collectSettings res ids = some l := by
  induction ids with
  | nil => exact ⟨[], rfl⟩
  | cons hd tl ih =>
    obtain ⟨name, id, kind⟩ := hd
    obtain ⟨es, hes⟩ := h name id kind (by simp)
    obtain ⟨l, hl⟩ :=
      ih fun n i k hm => h n i k (List.mem_cons_of_mem _ hm)
    exact ⟨(name, es) :: l, by simp [collectSettings, hes, hl]⟩

/-- C9: registration-before-lookup safety.  `register_event` inserts the
settings resource before recording its id, so after any sequence of
registrations starting from a world whose registry ids all resolve
(`Inv`, trivially true of the post-`build` world), every registered id
still resolves and the save routine's resource-lookup `unwrap`s cannot
fail: `save_settings` returns a snapshot. -/
theorem registration_save_safety
    (rs : List (ComponentId × String × EventKind)) (w : WorldModel)
    (h : Inv w) :
    Inv (applyRegistrations rs w) ∧
    ∃ s, save_settings (applyRegistrations rs w) = some s := by
  have hinv := Inv_applyRegistrations rs w h
  refine ⟨hinv, ?_⟩
  obtain ⟨l, hl⟩ := collectSettings_isSome hinv
  exact ⟨⟨(applyRegistrations rs w).plugin_settings.enabled, l⟩,
    by simp [save_settings, hl]⟩

/-- Witness for C9: two registrations (one `EVENT`, one `TRIGGER`) on the
post-`build` world; the saved snapshot exists. -/
theorem registration_save_safety_witness :
    Inv (initialWorld (LogEventsPluginSettings.default
      "log_settings.ron")) ∧
    ∃ s, save_settings (applyRegistrations
      [(1, "Foo", EventKind.EVENT), (2, "Bar", EventKind.TRIGGER)]
      (initialWorld (LogEventsPluginSettings.default "log_settings.ron")))
      = some s := by
  have h0 : Inv (initialWorld (LogEventsPluginSettings.default
      "log_settings.ron")) := by
    intro n i k hm
    simp [initialWorld] at hm
  exact ⟨h0, (registration_save_safety
    [(1, "Foo", EventKind.EVENT), (2, "Bar", EventKind.TRIGGER)]
    (initialWorld (LogEventsPluginSettings.default "log_settings.ron"))
    h0).2⟩

theorem collectSettings_keys {res : List (ComponentId × EventSettings)}
    {ids : LogSettingsIds} {l : List (String × EventSettings)}
    (h : collectSettings res ids = some l) :
    l.map Prod.fst = ids.map Prod.fst := by
  induction ids generalizing l with
  | nil =>
    simp only [collectSettings] at h
    cases h
    rfl
  | cons hd tl ih =>
    obtain ⟨name, id, kind⟩ := hd
    rw [show collectSettings res ((name, id, kind) :: tl)
        = (lookupA id res).bind fun es =>
            (collectSettings res tl).bind fun tail =>
              some ((name, es) :: tail) from rfl] at h
    cases hes : lookupA id res with
    | none => rw [hes] at h; simp at h
    | some es =>
      rw [hes] at h
      cases htl : collectSettings res tl with
      | none => rw [htl] at h; simp at h
      | some tl2 =>
        rw [htl] at h
        simp only [Option.some_bind, Option.some.injEq] at h
        subst h
        simp [ih htl]

/-- C10: the snapshot written at exit is exactly the registered types.
Whenever `save_settings` produces a snapshot, its `plugin_enabled` is the
current global flag, its keys are exactly (one each, in order) the
`LoggedTypeId`s registered during this run, and any name absent from the
registry — in particular a stale entry of the loaded `previous_settings`
that was never re-registered — is absent from the saved map. -/
theorem save_snapshot_exact (w : WorldModel) (s : LoggedEventsSettings)
    (hwf : WFmap w.log_settings_ids) (h : save_settings w = some s) :
    s.plugin_enabled = w.plugin_settings.enabled ∧
    s.events_settings.map Prod.fst = w.log_settings_ids.map Prod.fst ∧
    (∀ name, name ∈ w.log_settings_ids.map Prod.fst →
      (s.events_settings.map Prod.fst).count name = 1) ∧
    (∀ name, name ∉ w.log_settings_ids.map Prod.fst →
      name ∉ s.events_settings.map Prod.fst) := by
  unfold save_settings at h
  cases hc : collectSettings w.resources w.log_settings_ids with
  | none => rw [hc] at h; simp at h
  | some l =>
    rw [hc] at h
    simp only [Option.map_some', Option.some.injEq] at h
    subst h
    have hkeys := collectSettings_keys hc
    refine ⟨rfl, hkeys, fun name hm => ?_, fun name hm => ?_⟩
    · show (l.map Prod.fst).count name = 1
      rw [hkeys]
      exact List.count_eq_one_of_mem hwf hm
    · show name ∉ l.map Prod.fst
      rw [hkeys]
      exact hm

/-- Witness for C10: a world with one registered type `"Foo"` and a stale
restored entry `"Old"`; the saved snapshot holds exactly `"Foo"`. -/
theorem save_snapshot_exact_witness :
    WFmap (WorldModel.mk [("Foo", (1, EventKind.EVENT))]
      [(1, EventSettings.default)]
      (LogEventsPluginSettings.mk true false "log_settings.ron"
        [("Old", ⟨false, false, .warn⟩)])).log_settings_ids ∧
    save_settings (WorldModel.mk [("Foo", (1, EventKind.EVENT))]
      [(1, EventSettings.default)]
      (LogEventsPluginSettings.mk true false "log_settings.ron"
        [("Old", ⟨false, false, .warn⟩)]))
      = some ⟨true, [("Foo", EventSettings.default)]⟩ ∧
    "Old" ∉ ([("Foo", EventSettings.default)].map Prod.fst) := by
  refine ⟨by simp [WFmap], rfl, ?_⟩
  have h := save_snapshot_exact
    (WorldModel.mk [("Foo", (1, EventKind.EVENT))]
      [(1, EventSettings.default)]
      (LogEventsPluginSettings.mk true false "log_settings.ron"
        [("Old", ⟨false, false, .warn⟩)]))
    ⟨true, [("Foo", EventSettings.default)]⟩ (by simp [WFmap]) rfl
  exact h.2.2.2 "Old" (by simp)

end LogEvents
